import Mathlib

/-!
Verification of the Annotation Review Engine of `qa_annotation_tool.py`.

The development shallowly embeds the engine's pure core: the deterministic
shuffler (`shuffle_qa_data`), the queue cursor advance loop of `run_qa_tool`,
the judgement validator (`submit_qa` with its helper `save_qa_pair`), and the
output aggregator (`kept_pairs_to_output`).  Python strings are modelled by
Lean `String`; Python dicts (which preserve insertion order) are modelled by
association lists; Python sets by lists with membership-checked insertion.
Presentation-layer code, file I/O, timing and notes bookkeeping are outside
the embedded core, as they do not affect the properties below.
-/

namespace QATool

/-- Model of Python `pattern in text` / `text.index(pattern)` on strings:
returns the character index of the first occurrence of `pat` in `ctx`, or
`none` when `pat` does not occur (the `ValueError` case of `str.index`). -/
def strFind? : List Char → List Char → Option Nat
  | [], pat => if pat = [] then some 0 else none
  | c :: rest, pat =>
    if pat.isPrefixOf (c :: rest) then some 0
    else (strFind? rest pat).map (fun n => n + 1)

/-- Character index of the first occurrence of `pat` in `ctx` (Python
`ctx.index(pat)`), or `none` (Python raises `ValueError`). -/
def strIndex? (ctx pat : String) : Option Nat :=
  strFind? ctx.data pat.data

/-- Model of Python `str.strip()` with no arguments: removes leading and
trailing whitespace characters. -/
def py_strip (s : String) : String :=
  String.mk (((s.data.dropWhile Char.isWhitespace).reverse.dropWhile Char.isWhitespace).reverse)

/-- Lookup in an association list (model of Python `d[k]` / `k in d`,
insertion-ordered). -/
def alistFind? {α : Type} : List (String × α) → String → Option α
  | [], _ => none
  | (k', v) :: rest, k => if k' = k then some v else alistFind? rest k

/-- Update the value stored at key `k` (first occurrence) in place. -/
def alistModify {α : Type} : List (String × α) → String → (α → α) → List (String × α)
  | [], _, _ => []
  | (k', v) :: rest, k, f =>
    if k' = k then (k', f v) :: rest else (k', v) :: alistModify rest k f

/-- One element of the `kept_pairs` list: the durable record of a reviewer
judgement, with the dict keys of the source as fields
(`'Context'`, `'Question'`, `'Answer'`, `'Original Question Naturalness'`,
`'Original Answer Naturalness'`, `'Original Answer Adequacy'`,
`'Original Answer Correctness'`, `'User Query'`, `'User Answer'`). -/
structure KeptPair where
  Context : String
  Question : String
  Answer : String
  originalQuestionNaturalness : Bool
  originalAnswerNaturalness : Bool
  originalAnswerAdequacy : Bool
  originalAnswerCorrectness : Bool
  userQuery : String
  userAnswer : String
deriving DecidableEq

/-- One entry of the `answers` list of the SQuAD output:
`{'text': a, 'answer_start': context.index(a)}`. -/
structure AnswerEntry where
  text : String
  answer_start : Nat
deriving DecidableEq

/-- One element of the `qas` list of a SQuAD paragraph.  The source also
attaches `'id': str(uuid.uuid4())`, a freshly generated random identifier,
which is nondeterministic and therefore left out of the embedding. -/
structure QAEntry where
  question : String
  answers : List AnswerEntry
  is_impossible : Bool
deriving DecidableEq

/-- One element of `squad['data'][0]['paragraphs']`. -/
structure Paragraph where
  qas : List QAEntry
  context : String
deriving DecidableEq

/-- The condition of `kept_pairs_to_output` under which the original
(question, answer) pair is appended to `pairs_to_add`. -/
def condKeepOriginal (kp : KeptPair) : Bool :=
  kp.originalQuestionNaturalness && kp.originalAnswerNaturalness &&
    (kp.originalAnswerAdequacy || kp.originalAnswerCorrectness)

/-- The body of the `for q, a in pairs_to_add` loop: ensure the question key
exists under the context (inserted *before* the offset lookup), then append
the answer entry, skipping it when `context.index(a)` raises `ValueError`. -/
def addAnswerEntry (m : List (String × List (String × List AnswerEntry)))
    (context q a : String) : List (String × List (String × List AnswerEntry)) :=
  alistModify m context (fun qmap =>
    let qmap' := if (alistFind? qmap q).isSome then qmap else qmap ++ [(q, [])]
    match strIndex? context a with
    | some i => alistModify qmap' q (fun ans => ans ++ [⟨a, i⟩])
    | none => qmap')

/-- Intermediate state of the aggregation loop of `kept_pairs_to_output`:
the `unnatural` and `incorrect` accumulators and the
`context_to_question_answers` nested dict. -/
structure AggState where
  unnatural : List String
  incorrect : List (String × String)
  ctqa : List (String × List (String × List AnswerEntry))
deriving DecidableEq

/-- The body of the `for kept_pair in kept_pairs` loop of
`kept_pairs_to_output`. -/
def processKeptPair (st : AggState) (kp : KeptPair) : AggState :=
  let ctqa0 := if (alistFind? st.ctqa kp.Context).isSome then st.ctqa
               else st.ctqa ++ [(kp.Context, [])]
  let pairs_to_add := if condKeepOriginal kp then
      [(kp.userQuery, kp.userAnswer), (kp.Question, kp.Answer)]
    else [(kp.userQuery, kp.userAnswer)]
  let unnatural' := if condKeepOriginal kp then st.unnatural else
      st.unnatural ++ (if kp.originalQuestionNaturalness then [] else [kp.Question])
                   ++ (if kp.originalAnswerNaturalness then [] else [kp.Answer])
  let incorrect' := if condKeepOriginal kp then st.incorrect else
      if !kp.originalAnswerCorrectness && !kp.originalAnswerAdequacy then
        st.incorrect ++ [(kp.Question, kp.Answer)]
      else st.incorrect
  { unnatural := unnatural',
    incorrect := incorrect',
    ctqa := pairs_to_add.foldl (fun m p => addAnswerEntry m kp.Context p.1 p.2) ctqa0 }

/-- `kept_pairs_to_output`: converts `kept_pairs` to the SQuAD V2 format,
filtering unnatural/incorrect questions and answers into their own lists.
The constant wrapper `{'data': [{'title': 'Streamlit', 'paragraphs': P}],
'version': 'v2.0'}` is modelled by the paragraph list `P` itself, and the
random per-question `id` field is omitted (see `QAEntry`). -/
def kept_pairs_to_output (kept_pairs : List KeptPair) :
    List Paragraph × List String × List (String × String) :=
  let final := kept_pairs.foldl processKeptPair ⟨[], [], []⟩
  (final.ctqa.map (fun cq => ⟨cq.2.map (fun qa => ⟨qa.1, qa.2, false⟩), cq.1⟩),
   final.unnatural, final.incorrect)

/-- All `(text, answer_start)` answer entries of a SQuAD paragraph list, in
output order. -/
def all_answer_entries (ps : List Paragraph) : List (String × Nat) :=
  ps.flatMap (fun p => p.qas.flatMap (fun qa => qa.answers.map (fun e => (e.text, e.answer_start))))

/-- Boolean membership in a list of strings (model of Python `x in s` for a
set or list of strings). -/
def mem_str (l : List String) (x : String) : Bool :=
  l.any (fun y => decide (y = x))

/-- Model of Python `set.add`: insert when absent (position immaterial for a
set; appended at the end here). -/
def set_add (l : List String) (x : String) : List String :=
  if mem_str l x then l else l ++ [x]

/-- Model of `st.session_state['unsuitable_questions'][context].append(question)`
on a `defaultdict(list)`: append under an existing key, or create the key with
a singleton list. -/
def unsuitable_append (m : List (String × List String)) (c q : String) :
    List (String × List String) :=
  if (alistFind? m c).isSome then alistModify m c (fun qs => qs ++ [q])
  else m ++ [(c, [q])]

/-- The check `current_context in unsuitable_questions and current_question in
unsuitable_questions[current_context]` (plain membership does not create a
key, even on a defaultdict). -/
def in_unsuitable (m : List (String × List String)) (c q : String) : Bool :=
  match alistFind? m c with
  | some qs => mem_str qs q
  | none => false

/-- The engine's per-reviewer session state: the accepted judgements
(`kept_pairs`), the completed-question set (`completed_questions`), and the
Unsuitable record (`unsuitable_questions`).  Timing and notes bookkeeping are
analytics outside the embedded core. -/
structure EngineState where
  kept_pairs : List KeptPair
  completed_questions : List String
  unsuitable_questions : List (String × List String)
deriving DecidableEq

/-- A candidate submission as collected by the front end: the suitability
radio, the naturalness/adequacy/precision checkboxes, and the (possibly
edited) question and answer text areas. -/
structure Submission where
  question_suitable : Bool
  question_natural : Bool
  user_question : String
  answer_natural : Bool
  answer_adequate : Bool
  answer_correct : Bool
  user_answer : String
deriving DecidableEq

/-- `'The question cannot be blank.'` -/
def msg_blank_question : String := "The question cannot be blank."

/-- `'The answer cannot be blank,'` (the trailing comma is the source's). -/
def msg_blank_answer : String := "The answer cannot be blank,"

/-- Violation for a question modified yet marked natural. -/
def msg_question_modified_natural : String :=
  "The question is marked as reading naturally, but has also been modified. Only ones that do not read naturally should be modified."

/-- Violation for a question left unmodified yet marked not natural. -/
def msg_question_unmodified_unnatural : String :=
  "The question is marked as not reading naturally, but it has not been modified. Please modify it to read naturally."

/-- Violation for a submitted answer that is not a substring of the document;
references the literal submitted text as in the source f-string. -/
def msg_answer_not_in_document (submitted_answer : String) : String :=
  "The answer \"" ++ submitted_answer ++ "\" does not appear in the document, please provide an answer that does (case-sensitive)."

/-- The precision-implies-adequacy violation. -/
def msg_precise_implies_adequate : String :=
  "Any precise-and-correct answer should also be adequate, but it was not marked as such."

/-- Violation for an answer modified yet marked precise, correct and natural. -/
def msg_answer_modified_perfect : String :=
  "The answer is marked as precise, correct and reading naturally, but has been modified. Only ones with problems should be modified."

/-- Violation for an answer left unmodified yet marked not natural. -/
def msg_answer_unmodified_unnatural : String :=
  "The answer is marked as not reading naturally, but has not been modified. Please modify it to read naturally."

/-- Violation for an answer left unmodified yet marked neither adequate nor
correct. -/
def msg_answer_unmodified_incorrect : String :=
  "The answer is marked as incorrect, but has not been modified. Please modify it to be correct."

/-- `save_qa_pair`: appends the judgement record (with the *untrimmed*
user question and answer, as in the source) to `kept_pairs` and adds the
original question text to the completed-question set. -/
def save_qa_pair (st : EngineState) (context question answer : String)
    (original_question_naturalness original_answer_naturalness
     original_answer_adequacy original_answer_correctness : Bool)
    (user_question user_answer : String) : EngineState :=
  { st with
    kept_pairs := st.kept_pairs ++
      [⟨context, question, answer,
        original_question_naturalness, original_answer_naturalness,
        original_answer_adequacy, original_answer_correctness,
        user_question, user_answer⟩],
    completed_questions := set_add st.completed_questions question }

/-- The accumulation of `st.session_state['errors']['question']` in
`submit_qa` (suitable branch): blank check, then the modified/naturalness
consistency rule (`if`/`elif` in the source). -/
def question_errors_of (question : String) (sub : Submission) : List String :=
  let submitted_question := py_strip sub.user_question
  let question_modified := submitted_question ≠ py_strip question
  (if submitted_question = "" then [msg_blank_question] else []) ++
  (if question_modified ∧ sub.question_natural = true then
     [msg_question_modified_natural]
   else if ¬question_modified ∧ sub.question_natural = false then
     [msg_question_unmodified_unnatural]
   else [])

/-- The accumulation of `st.session_state['errors']['answer']` in
`submit_qa` (suitable branch): blank check, substring check, precision
implies adequacy, then the modified/unmodified consistency rules. -/
def answer_errors_of (context answer : String) (sub : Submission) : List String :=
  let submitted_answer := py_strip sub.user_answer
  let answer_modified := submitted_answer ≠ py_strip answer
  (if submitted_answer = "" then [msg_blank_answer] else []) ++
  (if strIndex? context submitted_answer = none then
     [msg_answer_not_in_document submitted_answer] else []) ++
  (if sub.answer_correct = true ∧ sub.answer_adequate = false then
     [msg_precise_implies_adequate] else []) ++
  (if answer_modified then
     (if sub.answer_correct = true ∧ sub.answer_natural = true then
        [msg_answer_modified_perfect] else [])
   else
     (if sub.answer_natural = false then [msg_answer_unmodified_unnatural] else []) ++
     (if sub.answer_correct = false ∧ sub.answer_adequate = false then
        [msg_answer_unmodified_incorrect] else []))

/-- `submit_qa`: given the current item (`context`, `question`, `answer`) and
the candidate submission, either records the question as unsuitable (when the
suitability radio says unsuitable, unconditionally), or runs the validation
rules and, when no violation arises, persists the judgement via
`save_qa_pair`.  Returns the new state plus the question-error and
answer-error message lists (both empty exactly on acceptance; the source
resets both lists at entry).  `export_data`, timing and notes side effects
are outside the embedded state. -/
def submit_qa (st : EngineState) (context question answer : String)
    (sub : Submission) : EngineState × List String × List String :=
  if sub.question_suitable = false then
    ({ st with unsuitable_questions :=
        unsuitable_append st.unsuitable_questions context question }, [], [])
  else
    if question_errors_of question sub = [] ∧ answer_errors_of context answer sub = [] then
      (save_qa_pair st context question answer
        sub.question_natural sub.answer_natural sub.answer_adequate
        sub.answer_correct sub.user_question sub.user_answer, [], [])
    else
      (st, question_errors_of question sub, answer_errors_of context answer sub)

/-- The skip test of the cursor loop in `run_qa_tool`:
`qa_pair_annotated or qa_pair_unsuitable` for the item at the cursor. -/
def item_resolved (completed : List String) (unsuitable : List (String × List String))
    (c q : String) : Bool :=
  mem_str completed q || in_unsuitable unsuitable c q

/-- The `while` loop of `run_qa_tool` advancing `index_input` (0 at session
load) past items already judged or already marked unsuitable: returns the
resulting cursor position over the queue of (context, question, answer)
triples; the position equals the queue length when every item is skipped
(end-of-queue, triggering the completion marker). -/
def advance_queue (completed : List String) (unsuitable : List (String × List String)) :
    List (String × String × String) → Nat
  | [] => 0
  | (c, q, _) :: rest =>
    if item_resolved completed unsuitable c q then
      advance_queue completed unsuitable rest + 1
    else 0

/-- `shuffle_qa_data` as executed: the function's first statement is
`return qa_data` (marked `# TODO Delete this line.` in the source), so the
seeded grouping-and-shuffling code below it is dead and the function returns
its input unchanged. -/
def shuffle_qa_data (username : String) (qa_data : List (String × String × String)) :
    List (String × String × String) :=
  qa_data

/-- Remove consecutive duplicates from a list of strings. -/
def dedupAdj : List String → List String
  | [] => []
  | [x] => [x]
  | x :: y :: rest =>
    if x = y then dedupAdj (y :: rest) else x :: dedupAdj (y :: rest)

/-- All items sharing a context are contiguous: after collapsing consecutive
duplicates, the context column contains no repeats. -/
def contexts_grouped (l : List (String × String × String)) : Prop :=
  (dedupAdj (l.map (fun t => t.1))).Nodup

instance (l : List (String × String × String)) : Decidable (contexts_grouped l) := by
  unfold contexts_grouped; infer_instance

/-- The per-(context, question) disjointness invariant: a (context, question)
pair recorded in the Unsuitable record never also appears as the (Context,
Question) of a kept judgement. -/
def pair_invariant (st : EngineState) : Prop :=
  ∀ c q, in_unsuitable st.unsuitable_questions c q = true →
    ∀ kp ∈ st.kept_pairs, ¬(kp.Context = c ∧ kp.Question = q)

/-- The completed-question set covers the Question field of every kept
judgement (maintained by `load_user_profile_and_dataset`, which rebuilds the
set from the profile, and by `save_qa_pair`). -/
def completed_covers (st : EngineState) : Prop :=
  ∀ kp ∈ st.kept_pairs, mem_str st.completed_questions kp.Question = true

/-- The cursor only stops on an unresolved item, so submissions are made for
items that are neither completed nor recorded unsuitable under their
context. -/
def unresolved_item (st : EngineState) (c q : String) : Prop :=
  mem_str st.completed_questions q = false ∧
  in_unsuitable st.unsuitable_questions c q = false

instance (st : EngineState) (c q : String) : Decidable (unresolved_item st c q) := by
  unfold unresolved_item; infer_instance

lemma mem_str_append (l1 l2 : List String) (x : String) :
    mem_str (l1 ++ l2) x = (mem_str l1 x || mem_str l2 x) := by
  simp [mem_str, List.any_append]

lemma mem_str_set_add_self (l : List String) (x : String) :
    mem_str (set_add l x) x = true := by
  by_cases h : mem_str l x = true
  · simp [set_add, h]
  · simp only [set_add]
    rw [if_neg (by simp [h]), mem_str_append]
    simp [mem_str]

lemma mem_str_set_add_of_mem (l : List String) (x y : String)
    (h : mem_str l y = true) : mem_str (set_add l x) y = true := by
  by_cases hx : mem_str l x = true
  · simpa [set_add, hx] using h
  · simp only [set_add]
    rw [if_neg (by simp [hx]), mem_str_append, h]
    rfl

lemma in_unsuitable_cons (k : String) (v : List String)
    (rest : List (String × List String)) (c q : String) :
    in_unsuitable ((k, v) :: rest) c q =
      if k = c then mem_str v q else in_unsuitable rest c q := by
  by_cases hk : k = c <;> simp [in_unsuitable, alistFind?, hk]

lemma unsuitable_append_cons (k : String) (v : List String)
    (rest : List (String × List String)) (c q : String) :
    unsuitable_append ((k, v) :: rest) c q =
      if k = c then (k, v ++ [q]) :: rest
      else (k, v) :: unsuitable_append rest c q := by
  by_cases hk : k = c
  · simp [unsuitable_append, alistFind?, alistModify, hk]
  · rw [if_neg hk]
    cases hfind : alistFind? rest c with
    | none =>
      simp [unsuitable_append, alistFind?, hk, hfind]
    | some v' =>
      simp [unsuitable_append, alistFind?, alistModify, hk, hfind]

lemma in_unsuitable_append_self (m : List (String × List String)) (c q : String) :
    in_unsuitable (unsuitable_append m c q) c q = true := by
  induction m with
  | nil => simp [unsuitable_append, alistFind?, in_unsuitable, mem_str]
  | cons hd tl ih =>
    obtain ⟨k, v⟩ := hd
    rw [unsuitable_append_cons]
    by_cases hk : k = c
    · rw [if_pos hk, in_unsuitable_cons, if_pos hk, mem_str_append]
      simp [mem_str]
    · rw [if_neg hk, in_unsuitable_cons, if_neg hk]
      exact ih

lemma in_unsuitable_append_elim (m : List (String × List String)) (c q c' q' : String)
    (h : in_unsuitable (unsuitable_append m c q) c' q' = true) :
    in_unsuitable m c' q' = true ∨ (c' = c ∧ q' = q) := by
  induction m with
  | nil =>
    have h' : in_unsuitable [(c, [q])] c' q' = true := by
      simpa [unsuitable_append, alistFind?] using h
    rw [in_unsuitable_cons] at h'
    by_cases hc : c = c'
    · rw [if_pos hc] at h'
      right
      have hq : q = q' := by simpa [mem_str] using h'
      exact ⟨hc.symm, hq.symm⟩
    · rw [if_neg hc] at h'
      simp [in_unsuitable, alistFind?] at h'
  | cons hd tl ih =>
    obtain ⟨k, v⟩ := hd
    rw [unsuitable_append_cons] at h
    by_cases hk : k = c
    · rw [if_pos hk, in_unsuitable_cons] at h
      by_cases hk' : k = c'
      · rw [if_pos hk'] at h
        rw [mem_str_append] at h
        rcases Bool.or_eq_true_iff.mp h with h1 | h2
        · left
          rw [in_unsuitable_cons, if_pos hk']
          exact h1
        · right
          have hq : q = q' := by simpa [mem_str] using h2
          exact ⟨hk'.symm.trans hk, hq.symm⟩
      · rw [if_neg hk'] at h
        left
        rw [in_unsuitable_cons, if_neg hk']
        exact h
    · rw [if_neg hk, in_unsuitable_cons] at h
      by_cases hk' : k = c'
      · rw [if_pos hk'] at h
        left
        rw [in_unsuitable_cons, if_pos hk']
        exact h
      · rw [if_neg hk'] at h
        rcases ih h with h1 | h2
        · left
          rw [in_unsuitable_cons, if_neg hk']
          exact h1
        · right
          exact h2

/-- C5: `shuffle_qa_data` short-circuits to the identity (its first statement
is `return qa_data`, marked with a `# TODO Delete this line.` comment, while
its docstring promises a seeded shuffle that keeps contexts grouped).  It
therefore returns every input unchanged, so on an input whose equal-context
items are not contiguous the output's equal-context items are not contiguous
either, contradicting the documented contiguity post-condition.  Multiset
preservation and determinism hold trivially for the identity. -/
theorem c5_shuffle_short_circuit :
    (∀ (u : String) (l : List (String × String × String)), shuffle_qa_data u l = l) ∧
    shuffle_qa_data "alice"
        [("c1", "q1", "a1"), ("c2", "q2", "a2"), ("c1", "q3", "a3")] =
      [("c1", "q1", "a1"), ("c2", "q2", "a2"), ("c1", "q3", "a3")] ∧
    ¬contexts_grouped (shuffle_qa_data "alice"
        [("c1", "q1", "a1"), ("c2", "q2", "a2"), ("c1", "q3", "a3")]) :=
  ⟨fun _ _ => rfl, rfl, by decide⟩

/-- C6: the cursor loop of `run_qa_tool` lands on the first queue index whose
item is neither already completed nor recorded unsuitable; every index before
the final position is resolved, and when the position is short of the queue
length the item there is unresolved (so position = length exactly when all
items are pre-marked). -/
theorem c6_cursor_first_unresolved (completed : List String)
    (unsuitable : List (String × List String)) (data : List (String × String × String)) :
    advance_queue completed unsuitable data ≤ data.length ∧
    (∀ i, i < advance_queue completed unsuitable data →
      item_resolved completed unsuitable (data.getD i ("", "", "")).1
        (data.getD i ("", "", "")).2.1 = true) ∧
    (advance_queue completed unsuitable data < data.length →
      item_resolved completed unsuitable
        (data.getD (advance_queue completed unsuitable data) ("", "", "")).1
        (data.getD (advance_queue completed unsuitable data) ("", "", "")).2.1 = false) := by
  induction data with
  | nil =>
    refine ⟨Nat.le_refl _, ?_, ?_⟩
    · intro i hi
      exact absurd hi (by simp [advance_queue])
    · intro h
      exact absurd h (by simp [advance_queue])
  | cons hd tl ih =>
    obtain ⟨c, q, a⟩ := hd
    obtain ⟨ih1, ih2, ih3⟩ := ih
    by_cases hr : item_resolved completed unsuitable c q = true
    · rw [show advance_queue completed unsuitable ((c, q, a) :: tl) =
          advance_queue completed unsuitable tl + 1 from by simp [advance_queue, hr]]
      refine ⟨by simpa using Nat.succ_le_succ ih1, ?_, ?_⟩
      · intro i hi
        cases i with
        | zero => simpa using hr
        | succ j =>
          have hj : j < advance_queue completed unsuitable tl := Nat.lt_of_succ_lt_succ hi
          simpa using ih2 j hj
      · intro hlt
        have hlt' : advance_queue completed unsuitable tl < tl.length :=
          Nat.lt_of_succ_lt_succ (by simpa using hlt)
        simpa using ih3 hlt'
    · have hr' : item_resolved completed unsuitable c q = false := by
        simpa using hr
      rw [show advance_queue completed unsuitable ((c, q, a) :: tl) = 0 from by
        simp [advance_queue, hr']]
      refine ⟨Nat.zero_le _, ?_, ?_⟩
      · intro i hi
        exact absurd hi (Nat.not_lt_zero i)
      · intro _
        simpa using hr'

/-- Witness for C6 at a concrete queue: with `q1` completed and nothing
unsuitable, the cursor over `[("c1","q1","a1"), ("c2","q2","a2")]` stays
within the queue and the item at its final position is unresolved. -/
theorem c6_witness :
    advance_queue ["q1"] [] [("c1", "q1", "a1"), ("c2", "q2", "a2")] ≤
      [("c1", "q1", "a1"), ("c2", "q2", "a2")].length ∧
    item_resolved ["q1"] []
      ([("c1", "q1", "a1"), ("c2", "q2", "a2")].getD
        (advance_queue ["q1"] [] [("c1", "q1", "a1"), ("c2", "q2", "a2")]) ("", "", "")).1
      ([("c1", "q1", "a1"), ("c2", "q2", "a2")].getD
        (advance_queue ["q1"] [] [("c1", "q1", "a1"), ("c2", "q2", "a2")]) ("", "", "")).2.1 = false :=
  ⟨(c6_cursor_first_unresolved ["q1"] [] _).1,
   (c6_cursor_first_unresolved ["q1"] [] _).2.2 (by decide)⟩

/-- Counterexample for C7: unsuitable tracking is keyed by (context,
question), not by question text alone.  Recording question `"q"` as
unsuitable under context `"c1"` does not make the item `("c2", "q")`
resolved: the cursor skip test is false there, while it is true under
`"c1"`. -/
theorem c7_counterexample :
    item_resolved [] [("c1", ["q"])] "c2" "q" = false ∧
    in_unsuitable [("c1", ["q"])] "c2" "q" = false ∧
    in_unsuitable [("c1", ["q"])] "c1" "q" = true := by decide

/-- C7 (amended): completion tracking is keyed by question text alone —
accepting a judgement via `save_qa_pair` for a question under one context
makes the cursor treat any item with that question as resolved under every
context — while unsuitable tracking is keyed by the (context, question)
pair, marking exactly that pair. -/
theorem c7_amended (st : EngineState) (c1 q a : String) (qn an ad ac : Bool)
    (uq ua c2 : String) (m : List (String × List String)) (c3 q3 : String) :
    item_resolved (save_qa_pair st c1 q a qn an ad ac uq ua).completed_questions
      st.unsuitable_questions c2 q = true ∧
    in_unsuitable (unsuitable_append m c3 q3) c3 q3 = true := by
  refine ⟨?_, in_unsuitable_append_self m c3 q3⟩
  simp only [item_resolved, save_qa_pair]
  rw [mem_str_set_add_self]
  rfl

lemma submit_qa_cases (st : EngineState) (c q a : String) (sub : Submission) :
    ((submit_qa st c q a sub).2.1 = [] ∧ (submit_qa st c q a sub).2.2 = []) ∨
    (submit_qa st c q a sub).1 = st := by
  by_cases hs : sub.question_suitable = false
  · left
    simp [submit_qa, hs]
  · simp only [submit_qa, if_neg hs]
    split
    · left
      exact ⟨rfl, rfl⟩
    · right
      rfl

lemma answer_errors_nil_substring (context answer : String) (sub : Submission)
    (h : answer_errors_of context answer sub = []) :
    strIndex? context (py_strip sub.user_answer) ≠ none := by
  intro hnone
  simp only [answer_errors_of, List.append_eq_nil] at h
  have hB := h.1.1.2
  rw [if_pos hnone] at hB
  simp at hB

/-- Counterexample for C1: on the single judgement with original question and
answer natural, answer adequate, and user question/answer equal to the
originals, the aggregation appends the (question, answer) entry *twice* —
once as the user pair, once as the original pair — so the verified dataset
holds two identical answer entries, not exactly one. -/
theorem c1_counterexample :
    (all_answer_entries (kept_pairs_to_output
      [⟨"the cat sat", "who sat", "cat", true, true, true, false, "who sat", "cat"⟩]).1).length = 2 ∧
    ¬((all_answer_entries (kept_pairs_to_output
      [⟨"the cat sat", "who sat", "cat", true, true, true, false, "who sat", "cat"⟩]).1).length = 1) := by
  decide

/-- C1 (amended): for a single judgement whose original question and answer
are natural, the answer adequate, the user question/answer equal to the
originals, and the answer occurring in the context at index `i`, aggregation
yields exactly one context and one question whose answers are exactly *two*
entries, each with `answer_start = context.index(answer)`, and empty
unnatural and incorrect lists. -/
theorem c1_amended_two_entries (kp : KeptPair) (i : Nat)
    (hq : kp.originalQuestionNaturalness = true)
    (ha : kp.originalAnswerNaturalness = true)
    (hd : kp.originalAnswerAdequacy = true)
    (huq : kp.userQuery = kp.Question)
    (hua : kp.userAnswer = kp.Answer)
    (hi : strIndex? kp.Context kp.Answer = some i) :
    kept_pairs_to_output [kp] =
      ([⟨[⟨kp.Question, [⟨kp.Answer, i⟩, ⟨kp.Answer, i⟩], false⟩], kp.Context⟩], [], []) := by
  have hcond : condKeepOriginal kp = true := by
    simp [condKeepOriginal, hq, ha, hd]
  simp [kept_pairs_to_output, processKeptPair, hcond, addAnswerEntry, alistFind?,
    alistModify, huq, hua, hi, hq, ha]

/-- Witness for C1 (amended) at a concrete judgement with
`context.index("cat") = 4`. -/
theorem c1_witness :
    kept_pairs_to_output
      [⟨"the cat sat", "who sat", "cat", true, true, true, false, "who sat", "cat"⟩] =
      ([⟨[⟨"who sat", [⟨"cat", 4⟩, ⟨"cat", 4⟩], false⟩], "the cat sat"⟩], [], []) :=
  c1_amended_two_entries _ 4 rfl rfl rfl rfl rfl (by decide)

/-- Counterexample for C2: a judgement whose flags satisfy the keep-original
condition but whose original answer does not occur in the context.  The
original (question, answer) pair is *not* added as an answer entry (the
offset lookup fails and the entry is skipped); the only entry produced is the
user pair's. -/
theorem c2_counterexample :
    condKeepOriginal ⟨"abc", "Q", "xyz", true, true, true, true, "q2", "a"⟩ = true ∧
    all_answer_entries (kept_pairs_to_output
      [⟨"abc", "Q", "xyz", true, true, true, true, "q2", "a"⟩]).1 = [("a", 0)] := by
  decide

/-- C2 (amended): for a single judgement whose user answer and original
answer both occur in the context (at indices `j` and `i`), the answer entries
of the aggregate are the user pair's entry followed by the original pair's
entry if and only if the original question was natural AND the original
answer was natural AND (adequate OR correct); otherwise only the user entry.
In the otherwise case the original question text goes to the unnatural list
when not natural, the original answer text goes to the unnatural list when
not natural, and (question, answer) goes to the incorrect list when the
answer was neither adequate nor correct. -/
theorem c2_amended_original_iff (kp : KeptPair) (i j : Nat)
    (hu : strIndex? kp.Context kp.userAnswer = some j)
    (ho : strIndex? kp.Context kp.Answer = some i) :
    all_answer_entries (kept_pairs_to_output [kp]).1 =
      (kp.userAnswer, j) :: (if condKeepOriginal kp then [(kp.Answer, i)] else []) ∧
    (kept_pairs_to_output [kp]).2.1 =
      (if condKeepOriginal kp then [] else
        (if kp.originalQuestionNaturalness then [] else [kp.Question]) ++
          (if kp.originalAnswerNaturalness then [] else [kp.Answer])) ∧
    (kept_pairs_to_output [kp]).2.2 =
      (if condKeepOriginal kp then [] else
        if !kp.originalAnswerCorrectness && !kp.originalAnswerAdequacy then
          [(kp.Question, kp.Answer)] else []) := by
  by_cases hcond : condKeepOriginal kp = true
  · by_cases hqq : kp.userQuery = kp.Question
    · simp [kept_pairs_to_output, processKeptPair, hcond, addAnswerEntry, alistFind?,
        alistModify, hu, ho, hqq, all_answer_entries]
    · simp [kept_pairs_to_output, processKeptPair, hcond, addAnswerEntry, alistFind?,
        alistModify, hu, ho, hqq, all_answer_entries]
  · have hc : condKeepOriginal kp = false := by simpa using hcond
    simp [kept_pairs_to_output, processKeptPair, hc, addAnswerEntry, alistFind?,
      alistModify, hu, all_answer_entries]

/-- Witness for C2 (amended) at a concrete judgement with an unnatural
original question: only the user entry is produced and the original question
text lands in the unnatural list. -/
theorem c2_witness :
    all_answer_entries (kept_pairs_to_output
      [⟨"the cat sat", "who", "cat", false, true, true, true, "who", "sat"⟩]).1 =
      ("sat", 8) :: (if condKeepOriginal
        ⟨"the cat sat", "who", "cat", false, true, true, true, "who", "sat"⟩ then
          [("cat", 4)] else []) ∧
    (kept_pairs_to_output
      [⟨"the cat sat", "who", "cat", false, true, true, true, "who", "sat"⟩]).2.1 =
      (if condKeepOriginal
        ⟨"the cat sat", "who", "cat", false, true, true, true, "who", "sat"⟩ then [] else
        (if (false : Bool) then [] else ["who"]) ++ (if (true : Bool) then [] else ["cat"])) ∧
    (kept_pairs_to_output
      [⟨"the cat sat", "who", "cat", false, true, true, true, "who", "sat"⟩]).2.2 =
      (if condKeepOriginal
        ⟨"the cat sat", "who", "cat", false, true, true, true, "who", "sat"⟩ then [] else
        if !(true : Bool) && !(true : Bool) then [("who", "cat")] else []) :=
  c2_amended_original_iff _ 4 8 (by decide) (by decide)

/-- Counterexample for C3: the validator checks the *stripped* submitted
answer against the context, but `save_qa_pair` stores the *unstripped* text.
Submitting user answer `" cat"` for context `"cat sat"` (original answer
`"cat"`) is accepted — no violations — yet the stored user answer `" cat"`
is not a substring of the context, so the `ValueError` branch of the offset
lookup is reachable for a validated judgement. -/
theorem c3_counterexample :
    (submit_qa ⟨[], [], []⟩ "cat sat" "q" "cat"
      ⟨true, true, "q", true, true, false, " cat"⟩).2.1 = [] ∧
    (submit_qa ⟨[], [], []⟩ "cat sat" "q" "cat"
      ⟨true, true, "q", true, true, false, " cat"⟩).2.2 = [] ∧
    (submit_qa ⟨[], [], []⟩ "cat sat" "q" "cat"
      ⟨true, true, "q", true, true, false, " cat"⟩).1.kept_pairs.map
        (fun kp => kp.userAnswer) = [" cat"] ∧
    strIndex? "cat sat" " cat" = none := by
  decide

/-- C3 (amended): for every submission accepted by the validator on a
suitable question, the *stripped* user answer occurs verbatim
(case-sensitively) in the context.  (The stored user answer is the
unstripped text, so the `ValueError` branch remains reachable when the
submission carries leading or trailing whitespace.) -/
theorem c3_amended_trimmed_substring (st : EngineState)
    (context question answer : String) (sub : Submission)
    (hsuit : sub.question_suitable = true)
    (hacc : (submit_qa st context question answer sub).2.2 = []) :
    strIndex? context (py_strip sub.user_answer) ≠ none := by
  simp only [submit_qa] at hacc
  rw [if_neg (by simp [hsuit])] at hacc
  split at hacc
  case isTrue hcond =>
    exact answer_errors_nil_substring context answer sub hcond.2
  case isFalse hcond =>
    exact answer_errors_nil_substring context answer sub (by simpa using hacc)

/-- Witness for C3 (amended) at a concrete accepted submission. -/
theorem c3_witness :
    strIndex? "the cat" (py_strip ("cat" : String)) ≠ none :=
  c3_amended_trimmed_substring ⟨[], [], []⟩ "the cat" "Q" "cat"
    ⟨true, true, "Q", true, true, false, "cat"⟩ rfl (by decide)

/-- C4: a submission on a suitable question marked precise/correct but not
adequate, all other rules passing (non-blank stripped question and answer,
question modified exactly when marked unnatural, stripped answer occurring
in the context, answer natural exactly when unmodified), yields exactly the
single "precise implies adequate" violation and leaves the state unchanged. -/
theorem c4_single_precise_adequate_violation (st : EngineState)
    (context question answer : String) (sub : Submission)
    (hsuit : sub.question_suitable = true)
    (hcorr : sub.answer_correct = true)
    (hadeq : sub.answer_adequate = false)
    (hq1 : py_strip sub.user_question ≠ "")
    (hq2 : ¬(py_strip sub.user_question ≠ py_strip question ∧ sub.question_natural = true))
    (hq3 : ¬(¬py_strip sub.user_question ≠ py_strip question ∧ sub.question_natural = false))
    (ha1 : py_strip sub.user_answer ≠ "")
    (ha2 : strIndex? context (py_strip sub.user_answer) ≠ none)
    (ha3 : py_strip sub.user_answer ≠ py_strip answer → sub.answer_natural = false)
    (ha4 : ¬py_strip sub.user_answer ≠ py_strip answer → sub.answer_natural = true) :
    submit_qa st context question answer sub = (st, [], [msg_precise_implies_adequate]) := by
  have hqerr : question_errors_of question sub = [] := by
    simp only [question_errors_of]
    rw [if_neg hq1, if_neg hq2, if_neg hq3]
    rfl
  have haerr : answer_errors_of context answer sub = [msg_precise_implies_adequate] := by
    simp only [answer_errors_of]
    rw [if_neg ha1, if_neg ha2, if_pos ⟨hcorr, hadeq⟩]
    by_cases hmod : py_strip sub.user_answer ≠ py_strip answer
    · rw [if_pos hmod, if_neg (by simp [ha3 hmod])]
      rfl
    · rw [if_neg hmod, if_neg (by simp [ha4 hmod]), if_neg (by simp [hcorr])]
      rfl
  simp only [submit_qa]
  rw [if_neg (by simp [hsuit])]
  rw [if_neg (by simp [haerr])]
  rw [hqerr, haerr]

/-- Witness for C4 at a concrete self-consistent submission. -/
theorem c4_witness :
    submit_qa ⟨[], [], []⟩ "the cat" "Q" "cat"
      ⟨true, true, "Q", true, false, true, "cat"⟩ =
      (⟨[], [], []⟩, [], [msg_precise_implies_adequate]) :=
  c4_single_precise_adequate_violation ⟨[], [], []⟩ "the cat" "Q" "cat"
    ⟨true, true, "Q", true, false, true, "cat"⟩ rfl rfl rfl (by decide) (by decide)
    (by decide) (by decide) (by decide) (by decide) (by decide)

/-- Counterexample for C8: the question-string-level XOR fails on a reachable
state.  Starting from the empty profile, `"shared q"` is recorded unsuitable
under context `"c1"` (unresolved there beforehand), then a valid judgement
for `"shared q"` under context `"the cat"` (still unresolved there, since the
unsuitable check is per (context, question)) is accepted.  In the resulting
state the question string `"shared q"` appears both in the Unsuitable record
and as the Question of a kept judgement. -/
theorem c8_counterexample :
    unresolved_item ⟨[], [], []⟩ "c1" "shared q" ∧
    (submit_qa ⟨[], [], []⟩ "c1" "shared q" "a1"
        ⟨false, false, "", false, false, false, ""⟩).2 = ([], []) ∧
    unresolved_item
      (submit_qa ⟨[], [], []⟩ "c1" "shared q" "a1"
        ⟨false, false, "", false, false, false, ""⟩).1 "the cat" "shared q" ∧
    (submit_qa (submit_qa ⟨[], [], []⟩ "c1" "shared q" "a1"
        ⟨false, false, "", false, false, false, ""⟩).1 "the cat" "shared q" "cat"
        ⟨true, true, "shared q", true, true, false, "cat"⟩).2 = ([], []) ∧
    ((submit_qa (submit_qa ⟨[], [], []⟩ "c1" "shared q" "a1"
        ⟨false, false, "", false, false, false, ""⟩).1 "the cat" "shared q" "cat"
        ⟨true, true, "shared q", true, true, false, "cat"⟩).1.unsuitable_questions.any
      (fun p => mem_str p.2 "shared q")) = true ∧
    ((submit_qa (submit_qa ⟨[], [], []⟩ "c1" "shared q" "a1"
        ⟨false, false, "", false, false, false, ""⟩).1 "the cat" "shared q" "cat"
        ⟨true, true, "shared q", true, true, false, "cat"⟩).1.kept_pairs.any
      (fun kp => decide (kp.Question = "shared q"))) = true := by
  decide

/-- C8 (amended): keyed by the (context, question) *pair*, the XOR holds:
if no (context, question) pair appears both in the Unsuitable record and on
a kept judgement, the completed set covers all kept questions, and the
submitted item is unresolved (as the cursor guarantees), then both
invariants still hold after any submission — suitable accepted, suitable
rejected, or unsuitable. -/
theorem c8_amended_pair_invariant (st : EngineState) (c q a : String) (sub : Submission)
    (hinv : pair_invariant st) (hcov : completed_covers st)
    (hun : unresolved_item st c q) :
    pair_invariant (submit_qa st c q a sub).1 ∧
    completed_covers (submit_qa st c q a sub).1 := by
  by_cases hs : sub.question_suitable = false
  · simp only [submit_qa, if_pos hs]
    constructor
    · intro c' q' h' kp hkp hcq
      rcases in_unsuitable_append_elim _ _ _ _ _ h' with hold | ⟨hc, hq⟩
      · exact hinv c' q' hold kp hkp hcq
      · have hkq : kp.Question = q := hcq.2.trans hq
        have hm := hcov kp hkp
        rw [hkq, hun.1] at hm
        exact Bool.false_ne_true hm
    · intro kp hkp
      exact hcov kp hkp
  · simp only [submit_qa, if_neg hs]
    split
    · constructor
      · intro c' q' h' kp hkp hcq
        simp only [save_qa_pair, List.mem_append, List.mem_singleton] at hkp
        rcases hkp with hold | hnew
        · exact hinv c' q' h' kp hold hcq
        · subst hnew
          simp only at hcq
          have hc : c = c' := hcq.1
          have hq : q = q' := hcq.2
          rw [← hc, ← hq] at h'
          simp only [save_qa_pair] at h'
          rw [hun.2] at h'
          exact Bool.false_ne_true h'
      · intro kp hkp
        simp only [save_qa_pair, List.mem_append, List.mem_singleton] at hkp
        rcases hkp with hold | hnew
        · exact mem_str_set_add_of_mem _ _ _ (hcov kp hold)
        · subst hnew
          exact mem_str_set_add_self _ _
    · exact ⟨hinv, hcov⟩

/-- Witness for C8 (amended) at the empty profile and a concrete accepted
submission. -/
theorem c8_witness :
    pair_invariant (submit_qa ⟨[], [], []⟩ "the cat" "Q" "cat"
      ⟨true, true, "Q", true, true, false, "cat"⟩).1 ∧
    completed_covers (submit_qa ⟨[], [], []⟩ "the cat" "Q" "cat"
      ⟨true, true, "Q", true, true, false, "cat"⟩).1 :=
  c8_amended_pair_invariant ⟨[], [], []⟩ "the cat" "Q" "cat"
    ⟨true, true, "Q", true, true, false, "cat"⟩
    (fun c q h => by simp [in_unsuitable, alistFind?] at h)
    (fun kp hkp => by simp at hkp)
    (by decide)

/-- C9: a submission with at least one violation is not persisted — the
engine state (kept pairs, completed-question set, Unsuitable record) is
returned unchanged, hence all derived artifacts recomputed from it are
unchanged too; the violations are returned as the two lists of
human-readable messages. -/
theorem c9_failed_validation_unchanged (st : EngineState) (c q a : String)
    (sub : Submission)
    (h : (submit_qa st c q a sub).2.1 ≠ [] ∨ (submit_qa st c q a sub).2.2 ≠ []) :
    (submit_qa st c q a sub).1 = st ∧
    kept_pairs_to_output (submit_qa st c q a sub).1.kept_pairs =
      kept_pairs_to_output st.kept_pairs := by
  rcases submit_qa_cases st c q a sub with hacc | hst
  · rcases h with h1 | h2
    · exact absurd hacc.1 h1
    · exact absurd hacc.2 h2
  · exact ⟨hst, by rw [hst]⟩

/-- Witness for C9 at a concrete failing submission (blank question). -/
theorem c9_witness :
    (submit_qa ⟨[], [], []⟩ "the cat" "Q" "cat"
      ⟨true, true, "", true, true, true, "cat"⟩).1 = ⟨[], [], []⟩ ∧
    kept_pairs_to_output (submit_qa ⟨[], [], []⟩ "the cat" "Q" "cat"
      ⟨true, true, "", true, true, true, "cat"⟩).1.kept_pairs =
      kept_pairs_to_output (⟨[], [], []⟩ : EngineState).kept_pairs :=
  c9_failed_validation_unchanged ⟨[], [], []⟩ "the cat" "Q" "cat"
    ⟨true, true, "", true, true, true, "cat"⟩ (Or.inl (by decide))

/-- C10: when the user answer's offset lookup fails (and the keep-original
condition does not hold, so only the user pair is attempted),
`kept_pairs_to_output` still returns a value: the question key was inserted
before the failed lookup, so the question appears in the SQuAD output with
an empty answers list, while the unnatural and incorrect lists are populated
as usual. -/
theorem c10_empty_answers_on_failed_lookup (kp : KeptPair)
    (hc : condKeepOriginal kp = false)
    (hu : strIndex? kp.Context kp.userAnswer = none) :
    kept_pairs_to_output [kp] =
      ([⟨[⟨kp.userQuery, [], false⟩], kp.Context⟩],
       (if kp.originalQuestionNaturalness then [] else [kp.Question]) ++
         (if kp.originalAnswerNaturalness then [] else [kp.Answer]),
       if !kp.originalAnswerCorrectness && !kp.originalAnswerAdequacy then
         [(kp.Question, kp.Answer)] else []) := by
  simp [kept_pairs_to_output, processKeptPair, hc, addAnswerEntry, alistFind?,
    alistModify, hu]

/-- Witness for C10 at a concrete judgement whose user answer is not found in
the context. -/
theorem c10_witness :
    kept_pairs_to_output [⟨"abc", "q", "zzz", false, true, true, true, "q", "zzz"⟩] =
      ([⟨[⟨"q", [], false⟩], "abc"⟩],
       (if (false : Bool) then [] else ["q"]) ++ (if (true : Bool) then [] else ["zzz"]),
       if !(true : Bool) && !(true : Bool) then [("q", "zzz")] else []) :=
  c10_empty_answers_on_failed_lookup
    ⟨"abc", "q", "zzz", false, true, true, true, "q", "zzz"⟩ rfl (by decide)

end QATool
